import Mathlib

/-!
Verification of the hci-log-interaction capture pipeline.

Shallow embedding of the Python sources:
- `src/hci_logger/trackers/event_screenshot_tracker.py` (trigger gate, cooldown,
  scroll accumulator, the non-reentrant `threading.Lock`),
- `src/main.py` (mouse-event buffer, size-triggered drain, forced flush),
- `src/hci_logger/trackers/mouse_tracker.py` (move throttling),
- `src/hci_logger/trackers/emotion_tracker.py`, `src/main.py` `_on_emotion`,
  `src/hci_logger/storage/database.py` `insert_emotion_event`, and
  `src/test_emotion_normalization.py` (emotion value normalization),
- `src/hci_logger/processing/heatmap.py` (activity-grid accumulation,
  smoothing, normalization),
- artifact filename derivation in `event_screenshot_tracker.py` and
  `audio_tracker.py`.

Python floats and wall-clock times are modelled as rationals; the mutable
state that matters to the claims (accumulators, last-capture time, buffers,
locks) is passed explicitly.  `threading.Lock` is non-reentrant: an acquire
attempted by the thread that already holds it blocks forever, which the
embedding represents as a `deadlocked` outcome carrying the state at the
moment of blocking.
-/

namespace HciLogger

/-- Python's builtin `abs` on numbers. -/
def pyAbs (q : ℚ) : ℚ := if q < 0 then -q else q

/-- Python's builtin `abs` on integers. -/
def pyAbsInt (n : ℤ) : ℤ := if n < 0 then -n else n

/-- Python's `int()` applied to a float: truncation toward zero. -/
def pyInt (q : ℚ) : ℤ := if q < 0 then ⌈q⌉ else ⌊q⌋

/-! ## EventBasedScreenshotTracker (event_screenshot_tracker.py)

Mutable fields of the tracker that the claims concern:
`last_screenshot_time`, `scroll_accumulator_x`, `scroll_accumulator_y`.
The single `self.lock` is threaded through as an explicit flag saying
whether the current call already holds it. -/

structure ScreenshotTracker where
  lastScreenshotTime : ℚ
  accX : ℚ
  accY : ℚ
  deriving Repr, DecidableEq

/-- Outcome of a handler call on the (single) listener thread: either the
call returns, reporting whether the cooldown gate let a capture fire, or it
blocks forever trying to acquire the non-reentrant lock it already holds. -/
inductive CaptureResult where
  | completed (st : ScreenshotTracker) (fired : Bool)
  | deadlocked (st : ScreenshotTracker)
  deriving Repr, DecidableEq

/-- `_capture_on_event` (lines 149–166): under `with self.lock`, return
without firing if `current_time - last_screenshot_time < cooldown`, else
set `last_screenshot_time` and capture.  `lockHeldByCaller` records whether
the calling code already holds `self.lock`; `threading.Lock` is
non-reentrant, so acquiring it again from the same thread blocks forever. -/
def capture_on_event (lockHeldByCaller : Bool) (cooldown now : ℚ)
    (st : ScreenshotTracker) : CaptureResult :=
  if lockHeldByCaller then
    .deadlocked st
  else if now - st.lastScreenshotTime < cooldown then
    .completed st false
  else
    .completed { st with lastScreenshotTime := now } true

/-- `_accumulate_scroll` (lines 119–147): under `with self.lock`, add
`abs(dx)`/`abs(dy)` to the accumulators; if `abs(accX) + abs(accY) ≥
scroll_threshold`, zero both accumulators and call `_capture_on_event`
*while still holding the lock*. -/
def accumulate_scroll (scrollThreshold cooldown dx dy now : ℚ)
    (st : ScreenshotTracker) : CaptureResult :=
  let st1 : ScreenshotTracker :=
    { st with accX := st.accX + pyAbs dx, accY := st.accY + pyAbs dy }
  let total := pyAbs st1.accX + pyAbs st1.accY
  if total ≥ scrollThreshold then
    capture_on_event true cooldown now { st1 with accX := 0, accY := 0 }
  else
    .completed st1 false

/-- A mouse event as seen by `on_mouse_event` (coordinates are irrelevant
to the gate logic and omitted). -/
inductive MEvent where
  | click (pressed : Bool)
  | scroll (dx dy : ℚ)
  deriving Repr, DecidableEq

/-- `on_mouse_event` (lines 88–117): a pressed click goes straight to
`_capture_on_event` (no lock held yet); a scroll goes to
`_accumulate_scroll`; everything else is ignored. -/
def on_mouse_event (scrollThreshold cooldown : ℚ) (e : MEvent) (now : ℚ)
    (st : ScreenshotTracker) : CaptureResult :=
  match e with
  | .click pressed =>
      if pressed then capture_on_event false cooldown now st
      else .completed st false
  | .scroll dx dy => accumulate_scroll scrollThreshold cooldown dx dy now st

/-- Run a timestamped event sequence on the listener thread from a given
state.  Returns the state when the run ends (normally or at the moment of
deadlock), the number of captures the cooldown gate let fire, and whether
the thread deadlocked (in which case the remaining events are never
processed). -/
def runEvents (scrollThreshold cooldown : ℚ) (st : ScreenshotTracker) :
    List (MEvent × ℚ) → ScreenshotTracker × ℕ × Bool
  | [] => (st, 0, false)
  | (e, t) :: rest =>
      match on_mouse_event scrollThreshold cooldown e t st with
      | .completed st' fired =>
          let r := runEvents scrollThreshold cooldown st' rest
          (r.1, (if fired then 1 else 0) + r.2.1, r.2.2)
      | .deadlocked st' => (st', 0, true)

/-- Scroll magnitude `abs(accX) + abs(accY)` left in a result's state. -/
def accOf : CaptureResult → ℚ
  | .completed st _ => pyAbs st.accX + pyAbs st.accY
  | .deadlocked st => pyAbs st.accX + pyAbs st.accY

/-- Whether the call returned with a fired capture (a deadlocked call never
fires). -/
def firedOf : CaptureResult → Bool
  | .completed _ fired => fired
  | .deadlocked _ => false

/-! ## Mouse-event buffer (main.py)

`self._event_buffer` is a plain list guarded by `self._buffer_lock`
(`_BUFFER_SIZE = 50`).  `_on_mouse_event` (lines 1092–1115) appends under
the lock and, when the size reaches `_BUFFER_SIZE`, copies the list and
clears it, writing the copy to the database *after* leaving the `with`
block.  `_flush_buffer_safe` (lines 1283–1288) writes and clears the
buffer *inside* the `with` block, only when the buffer is non-empty and a
session id is set. -/

/-- The buffer portion of `_on_mouse_event`: append, and when
`len(buffer) ≥ _BUFFER_SIZE` swap the full list out as the batch to
write.  Returns the new buffer contents and the drained batch, if any. -/
def bufferAppend {α : Type} (bufferSize : ℕ) (buf : List α) (e : α) :
    List α × Option (List α) :=
  let buf' := buf ++ [e]
  if bufferSize ≤ buf'.length then ([], some buf') else (buf', none)

/-- Deliver a list of events to `_on_mouse_event`'s buffer logic in order,
collecting the drained batches. -/
def runAppends {α : Type} (bufferSize : ℕ) :
    List α → List α → List α × List (List α)
  | buf, [] => (buf, [])
  | buf, e :: es =>
      match bufferAppend bufferSize buf e with
      | (buf', none) => runAppends bufferSize buf' es
      | (buf', some batch) =>
          let r := runAppends bufferSize buf' es
          (r.1, batch :: r.2)

/-- `_flush_buffer_safe`: under the buffer lock, if the buffer is non-empty
and a session is active, write the whole buffer as one batch and clear it. -/
def flush_buffer_safe {α : Type} (buf : List α) (sessionActive : Bool) :
    List α × Option (List α) :=
  if !buf.isEmpty && sessionActive then ([], some buf) else (buf, none)

/-- Observable actions of the buffer paths against `_buffer_lock` and the
store: acquiring/releasing the lock and calling
`db.insert_mouse_events_batch`. -/
inductive BufAction (α : Type) where
  | acquire
  | release
  | write (batch : List α)
  deriving Repr, DecidableEq

/-- Action trace of `_on_mouse_event`'s buffer path: the append and the
optional swap happen between acquire and release; the batch write (which
requires a drained batch and an active session) happens after release. -/
def on_mouse_event_trace {α : Type} (bufferSize : ℕ) (buf : List α) (e : α)
    (sessionActive : Bool) : List (BufAction α) :=
  let r := bufferAppend bufferSize buf e
  [.acquire, .release] ++
    (match r.2 with
     | some batch => if sessionActive then [.write batch] else []
     | none => [])

/-- Action trace of `_flush_buffer_safe`: the batch write happens between
acquire and release. -/
def flush_trace {α : Type} (buf : List α) (sessionActive : Bool) :
    List (BufAction α) :=
  [.acquire] ++
    (if !buf.isEmpty && sessionActive then [.write buf] else []) ++ [.release]

/-- Whether some `write` action in the trace occurs while the lock-hold
depth (starting from `d`) is positive. -/
def writesWhileLocked {α : Type} : ℕ → List (BufAction α) → Bool
  | _, [] => false
  | d, .acquire :: rest => writesWhileLocked (d + 1) rest
  | d, .release :: rest => writesWhileLocked (d - 1) rest
  | d, .write _ :: rest => decide (0 < d) || writesWhileLocked d rest

/-! ## Artifact filenames

`event_screenshot_tracker.py` line 216:
`f"screenshot_{self.session_id}_{int(timestamp)}_{trigger_event_type}.{self.format}"`.
`audio_tracker.py` line 162: `f"audio_{self.session_id}_{int(start_time)}.wav"`. -/

/-- Screenshot filename derivation (`_capture_screenshot`, line 216). -/
def screenshotFilename (sessionId : ℕ) (timestamp : ℚ)
    (triggerEventType fmt : String) : String :=
  "screenshot_" ++ toString sessionId ++ "_" ++ toString (pyInt timestamp) ++
    "_" ++ triggerEventType ++ "." ++ fmt

/-- Audio segment filename derivation (`_save_segment`, line 162). -/
def audioFilename (sessionId : ℕ) (startTime : ℚ) : String :=
  "audio_" ++ toString sessionId ++ "_" ++ toString (pyInt startTime) ++ ".wav"

/-! ## Emotion value pipeline

`emotion_tracker.py` `_analyze_frame` (lines 177–202) maps each per-class
score to `score / 100.0` with no clamping and forwards `face_confidence`
unchanged; `main.py` `_on_emotion` (lines 1160–1177) passes the values to
`database.py` `insert_emotion_event` (lines 279–307), which stores them
unchanged.  `test_emotion_normalization.py` defines the clamping
normalizer the repository's test exercises. -/

/-- Per-class score as `_analyze_frame` computes it: `score / 100.0`,
no clamping. -/
def analyze_frame_emotion_value (raw : ℚ) : ℚ := raw / 100

/-- `face_confidence` as `_analyze_frame` forwards it: unchanged. -/
def analyze_frame_face_confidence (raw : ℚ) : ℚ := raw

/-- `insert_emotion_event` stores each numeric field exactly as given. -/
def insert_emotion_value (v : ℚ) : ℚ := v

/-- `normalize_emotion` from `test_emotion_normalization.py`:
`max(0.0, min(1.0, value / 100.0))`. -/
def normalize_emotion (value : ℚ) : ℚ := max 0 (min 1 (value / 100))

/-! ## MouseTracker move throttle (mouse_tracker.py)

`_on_move` (lines 43–63): with `_last_position` initially `(0, 0)`, emit a
move only when `abs(x - last.x) > movement_threshold` or
`abs(y - last.y) > movement_threshold`; `_last_position` is updated only on
emission. -/

/-- One `_on_move` call: returns the new `_last_position` and whether the
move was emitted. -/
def on_move (movementThreshold : ℤ) (last p : ℤ × ℤ) : (ℤ × ℤ) × Bool :=
  let dx := pyAbsInt (p.1 - last.1)
  let dy := pyAbsInt (p.2 - last.2)
  if dx > movementThreshold ∨ dy > movementThreshold then (p, true)
  else (last, false)

/-- Deliver a list of raw positions to `_on_move` in order; returns the
final `_last_position` and the emitted positions in order. -/
def runMoves (movementThreshold : ℤ) (last : ℤ × ℤ) :
    List (ℤ × ℤ) → (ℤ × ℤ) × List (ℤ × ℤ)
  | [] => (last, [])
  | p :: ps =>
      let r := on_move movementThreshold last p
      let rest := runMoves movementThreshold r.1 ps
      (rest.1, (if r.2 then [p] else []) ++ rest.2)

/-! ## HeatmapGenerator (processing/heatmap.py)

`_create_heatmap_array` (lines 226–244) and the identical head of
`_generate_heatmap_image` (lines 88–111): accumulate a
`screen_height × screen_width` grid of counts over coordinate-clamped
cells, smooth it with `scipy.ndimage.gaussian_filter`, and divide by the
grid maximum only when that maximum is positive. -/

/-- Clamp an integer coordinate into `[0, n-1]` and view it as `Fin n`:
`max(0, min(v, n - 1))`. -/
def clampIdx (n : ℕ) [NeZero n] (v : ℤ) : Fin n :=
  ⟨(max 0 (min v ((n : ℤ) - 1))).toNat, by
    have hn : 0 < n := Nat.pos_of_ne_zero (NeZero.ne n)
    have h1 : max 0 (min v ((n : ℤ) - 1)) ≤ (n : ℤ) - 1 := by
      apply max_le
      · omega
      · exact min_le_right _ _
    omega⟩

/-- A `screen_height × screen_width` grid of rational counts, indexed
`(row, column)` like the numpy array `heatmap[y, x]`. -/
def Grid (W H : ℕ) : Type := Fin H × Fin W → ℚ

/-- `np.zeros((H, W))`. -/
def zeroGrid (W H : ℕ) : Grid W H := fun _ => 0

/-- One loop iteration of the accumulation: clamp the event's coordinates
and increment that cell by 1. -/
def addEvent (W H : ℕ) [NeZero W] [NeZero H] (g : Grid W H) (e : ℤ × ℤ) :
    Grid W H :=
  let cell : Fin H × Fin W := (clampIdx H e.2, clampIdx W e.1)
  Function.update g cell (g cell + 1)

/-- The accumulation loop of `_create_heatmap_array`. -/
def accumulateEvents (W H : ℕ) [NeZero W] [NeZero H]
    (coordinates : List (ℤ × ℤ)) : Grid W H :=
  coordinates.foldl (addEvent W H) (zeroGrid W H)

/-- Weight of a separable binomial smoothing kernel at offset `d`,
radius `r`: `C(2r, r+d) / 4^r`. -/
def binomialWeight (r : ℕ) (d : ℤ) : ℚ :=
  (Nat.choose (2 * r) (((r : ℤ) + d).toNat) : ℚ) / 4 ^ r

/-- Models `scipy.ndimage.gaussian_filter`'s two-dimensional smoothing
kernel: separable, nonnegative, with a strictly positive centre weight
(a binomial approximation of the Gaussian). -/
def gaussKernel (r : ℕ) (dy dx : ℤ) : ℚ := binomialWeight r dy * binomialWeight r dx

/-- scipy's `reflect` boundary handling for an index into `[0, n)`,
written for offsets of magnitude below `n` (a single reflection), and
clamped for totality. -/
def reflectIdx (n : ℕ) [NeZero n] (i : ℤ) : Fin n :=
  clampIdx n (if i < 0 then -1 - i else if (n : ℤ) ≤ i then 2 * n - 1 - i else i)

/-- Models `scipy.ndimage.gaussian_filter` on the grid: convolution with
the smoothing kernel under `reflect` boundary handling. -/
def gaussian_filter (W H : ℕ) [NeZero W] [NeZero H] (r : ℕ) (g : Grid W H) :
    Grid W H := fun p =>
  ∑ dy ∈ Finset.Icc (-(r : ℤ)) r, ∑ dx ∈ Finset.Icc (-(r : ℤ)) r,
    gaussKernel r dy dx * g (reflectIdx H ((p.1 : ℤ) + dy), reflectIdx W ((p.2 : ℤ) + dx))

/-- `heatmap.sum()`: total mass of a grid. -/
def totalMass (W H : ℕ) (g : Grid W H) : ℚ := ∑ p, g p

/-- `heatmap.max()`: maximum entry of a (non-empty) grid. -/
def gridMax (W H : ℕ) [NeZero W] [NeZero H] (g : Grid W H) : ℚ :=
  Finset.univ.sup' (Finset.univ_nonempty) g

/-- The normalization step of `_create_heatmap_array`: divide by the
maximum only when it is positive. -/
def normalizeGrid (W H : ℕ) [NeZero W] [NeZero H] (g : Grid W H) : Grid W H :=
  if 0 < gridMax W H g then fun p => g p / gridMax W H g else g

/-- `_create_heatmap_array` (lines 226–244): accumulate, smooth,
normalize.  `_generate_heatmap_image` (lines 88–111) computes the same
grid before colour mapping. -/
def create_heatmap_array (W H : ℕ) [NeZero W] [NeZero H] (r : ℕ)
    (coordinates : List (ℤ × ℤ)) : Grid W H :=
  normalizeGrid W H (gaussian_filter W H r (accumulateEvents W H coordinates))

/-! ## Helper lemmas -/

theorem totalMass_addEvent (W H : ℕ) [NeZero W] [NeZero H] (g : Grid W H)
    (e : ℤ × ℤ) : totalMass W H (addEvent W H g e) = totalMass W H g + 1 := by
  classical
  unfold totalMass addEvent
  set c : Fin H × Fin W := (clampIdx H e.2, clampIdx W e.1) with hc
  rw [Finset.sum_update_of_mem (Finset.mem_univ c)]
  have hsd : ∑ x ∈ Finset.univ \ {c}, g x = (∑ p, g p) - g c := by
    rw [Finset.sum_sdiff_eq_sub (Finset.singleton_subset_iff.mpr (Finset.mem_univ c))]
    simp
  rw [hsd]
  ring

theorem totalMass_foldl (W H : ℕ) [NeZero W] [NeZero H] (es : List (ℤ × ℤ))
    (g : Grid W H) :
    totalMass W H (es.foldl (addEvent W H) g) = totalMass W H g + es.length := by
  induction es generalizing g with
  | nil => simp
  | cons e es ih =>
      simp only [List.foldl_cons, ih, totalMass_addEvent, List.length_cons]
      push_cast
      ring

theorem totalMass_accumulate (W H : ℕ) [NeZero W] [NeZero H]
    (es : List (ℤ × ℤ)) :
    totalMass W H (accumulateEvents W H es) = es.length := by
  unfold accumulateEvents
  rw [totalMass_foldl]
  simp [totalMass, zeroGrid]

theorem addEvent_nonneg (W H : ℕ) [NeZero W] [NeZero H] (g : Grid W H)
    (e : ℤ × ℤ) (hg : ∀ p, 0 ≤ g p) : ∀ p, 0 ≤ addEvent W H g e p := by
  intro p
  unfold addEvent
  by_cases h : p = (clampIdx H e.2, clampIdx W e.1)
  · subst h
    simp only [Function.update_same]
    have := hg (clampIdx H e.2, clampIdx W e.1)
    linarith
  · rw [Function.update_noteq h]
    exact hg p

theorem accumulate_nonneg (W H : ℕ) [NeZero W] [NeZero H]
    (es : List (ℤ × ℤ)) : ∀ p, 0 ≤ accumulateEvents W H es p := by
  unfold accumulateEvents
  suffices h : ∀ g : Grid W H, (∀ p, 0 ≤ g p) → ∀ p, 0 ≤ (es.foldl (addEvent W H) g) p by
    exact h (zeroGrid W H) (fun p => le_refl 0)
  induction es with
  | nil => intro g hg; exact hg
  | cons e es ih =>
      intro g hg
      exact ih _ (addEvent_nonneg W H g e hg)

theorem binomialWeight_nonneg (r : ℕ) (d : ℤ) : 0 ≤ binomialWeight r d := by
  unfold binomialWeight
  positivity

theorem gaussKernel_nonneg (r : ℕ) (dy dx : ℤ) : 0 ≤ gaussKernel r dy dx :=
  mul_nonneg (binomialWeight_nonneg r dy) (binomialWeight_nonneg r dx)

theorem gaussKernel_center_pos (r : ℕ) : 0 < gaussKernel r 0 0 := by
  have h : binomialWeight r 0 = (Nat.choose (2 * r) r : ℚ) / 4 ^ r := by
    unfold binomialWeight
    norm_num
  unfold gaussKernel
  rw [h]
  have hc : 0 < (Nat.choose (2 * r) r : ℚ) := by
    have := Nat.choose_pos (show r ≤ 2 * r by omega)
    exact_mod_cast this
  positivity

theorem gaussian_filter_zero (W H : ℕ) [NeZero W] [NeZero H] (r : ℕ) :
    gaussian_filter W H r (zeroGrid W H) = zeroGrid W H := by
  funext p
  unfold gaussian_filter zeroGrid
  simp

theorem gaussian_filter_nonneg (W H : ℕ) [NeZero W] [NeZero H] (r : ℕ)
    (g : Grid W H) (hg : ∀ p, 0 ≤ g p) : ∀ p, 0 ≤ gaussian_filter W H r g p := by
  intro p
  unfold gaussian_filter
  apply Finset.sum_nonneg
  intro dy _
  apply Finset.sum_nonneg
  intro dx _
  exact mul_nonneg (gaussKernel_nonneg r dy dx) (hg _)

theorem reflectIdx_coe (n : ℕ) [NeZero n] (j : Fin n) :
    reflectIdx n (j : ℤ) = j := by
  unfold reflectIdx clampIdx
  have h0' : (0 : ℤ) ≤ (j : ℤ) := by exact_mod_cast Nat.zero_le (j : ℕ)
  have h0 : ¬((j : ℤ) < 0) := not_lt.mpr h0'
  have hlt : (j : ℤ) < (n : ℤ) := by exact_mod_cast j.isLt
  have h1 : ¬((n : ℤ) ≤ (j : ℤ)) := not_le.mpr hlt
  simp only [h0, h1, if_false]
  apply Fin.ext
  have hj : (j : ℤ) ≤ (n : ℤ) - 1 := by omega
  simp only [min_eq_left hj, max_eq_right h0']
  omega

theorem gaussian_filter_pos_at (W H : ℕ) [NeZero W] [NeZero H] (r : ℕ)
    (g : Grid W H) (hg : ∀ p, 0 ≤ g p) (c : Fin H × Fin W) (hc : 0 < g c) :
    0 < gaussian_filter W H r g c := by
  unfold gaussian_filter
  have hmem : (0 : ℤ) ∈ Finset.Icc (-(r : ℤ)) r := by
    simp
  apply lt_of_lt_of_le (b := gaussKernel r 0 0 * g c)
  · exact mul_pos (gaussKernel_center_pos r) hc
  · calc gaussKernel r 0 0 * g c
        = gaussKernel r 0 0 * g (reflectIdx H ((c.1 : ℤ) + 0), reflectIdx W ((c.2 : ℤ) + 0)) := by
          rw [add_zero, add_zero, reflectIdx_coe, reflectIdx_coe]
      _ ≤ ∑ dx ∈ Finset.Icc (-(r : ℤ)) r,
            gaussKernel r 0 dx * g (reflectIdx H ((c.1 : ℤ) + 0), reflectIdx W ((c.2 : ℤ) + dx)) := by
          apply Finset.single_le_sum (f := fun dx =>
            gaussKernel r 0 dx * g (reflectIdx H ((c.1 : ℤ) + 0), reflectIdx W ((c.2 : ℤ) + dx)))
            _ hmem
          intro i _
          exact mul_nonneg (gaussKernel_nonneg r 0 i) (hg _)
      _ ≤ _ := by
          apply Finset.single_le_sum (f := fun dy =>
            ∑ dx ∈ Finset.Icc (-(r : ℤ)) r,
              gaussKernel r dy dx * g (reflectIdx H ((c.1 : ℤ) + dy), reflectIdx W ((c.2 : ℤ) + dx)))
            _ hmem
          intro i _
          apply Finset.sum_nonneg
          intro dx _
          exact mul_nonneg (gaussKernel_nonneg r i dx) (hg _)

theorem gridMax_le_iff (W H : ℕ) [NeZero W] [NeZero H] (g : Grid W H) (a : ℚ) :
    gridMax W H g ≤ a ↔ ∀ p, g p ≤ a := by
  unfold gridMax
  rw [Finset.sup'_le_iff]
  simp

theorem le_gridMax (W H : ℕ) [NeZero W] [NeZero H] (g : Grid W H) (p : Fin H × Fin W) :
    g p ≤ gridMax W H g :=
  Finset.le_sup' g (Finset.mem_univ p)

theorem gridMax_zero_grid_zero (W H : ℕ) [NeZero W] [NeZero H] (g : Grid W H)
    (hg : ∀ p, 0 ≤ g p) (h : gridMax W H g = 0) : ∀ p, g p = 0 := by
  intro p
  have h1 := le_gridMax W H g p
  rw [h] at h1
  linarith [hg p]

theorem normalizeGrid_of_max_zero (W H : ℕ) [NeZero W] [NeZero H]
    (g : Grid W H) (h : gridMax W H g = 0) : normalizeGrid W H g = g := by
  unfold normalizeGrid
  rw [h]
  simp

theorem gridMax_zeroGrid (W H : ℕ) [NeZero W] [NeZero H] :
    gridMax W H (zeroGrid W H) = 0 := by
  apply le_antisymm
  · rw [gridMax_le_iff]
    intro p
    simp [zeroGrid]
  · have := le_gridMax W H (zeroGrid W H) (Classical.arbitrary _)
    simpa [zeroGrid] using this

theorem gridMax_normalize_eq_one (W H : ℕ) [NeZero W] [NeZero H]
    (g : Grid W H) (h : 0 < gridMax W H g) :
    gridMax W H (normalizeGrid W H g) = 1 := by
  unfold normalizeGrid
  rw [if_pos h]
  apply le_antisymm
  · rw [gridMax_le_iff]
    intro p
    rw [div_le_one h]
    exact le_gridMax W H g p
  · obtain ⟨p, -, hp⟩ := Finset.exists_mem_eq_sup' (Finset.univ_nonempty) g
    have hEq : gridMax W H g = g p := by
      unfold gridMax
      exact hp
    have hgp : 0 < g p := hEq ▸ h
    have hdiv : g p / gridMax W H g = 1 := by
      rw [hEq]
      exact div_self (ne_of_gt hgp)
    calc (1 : ℚ) = g p / gridMax W H g := hdiv.symm
      _ ≤ _ := le_gridMax W H _ p

theorem accumulate_replicate_pos (W H : ℕ) [NeZero W] [NeZero H]
    (n : ℕ) (hn : 0 < n) (e : ℤ × ℤ) :
    0 < accumulateEvents W H (List.replicate n e) (clampIdx H e.2, clampIdx W e.1) := by
  unfold accumulateEvents
  obtain ⟨m, rfl⟩ : ∃ m, n = m + 1 := ⟨n - 1, by omega⟩
  rw [List.replicate_succ, List.foldl_cons]
  have hstep : ∀ (es : List (ℤ × ℤ)) (g : Grid W H) (p : Fin H × Fin W),
      g p ≤ (es.foldl (addEvent W H) g) p := by
    intro es
    induction es with
    | nil => intro g p; exact le_refl _
    | cons e' es ih =>
        intro g p
        refine le_trans ?_ (ih (addEvent W H g e') p)
        unfold addEvent
        by_cases h : p = (clampIdx H e'.2, clampIdx W e'.1)
        · subst h; simp
        · rw [Function.update_noteq h]
  refine lt_of_lt_of_le ?_ (hstep _ _ _)
  unfold addEvent zeroGrid
  simp
/-- `_accumulate_scroll` on any scroll that lifts the accumulated magnitude
to the threshold: the accumulators are zeroed, and the nested
`_capture_on_event` call then blocks forever re-acquiring `self.lock`. -/
theorem accumulate_scroll_deadlocks_of_threshold
    (scrollThreshold cooldown dx dy now : ℚ) (st : ScreenshotTracker)
    (h : pyAbs (st.accX + pyAbs dx) + pyAbs (st.accY + pyAbs dy) ≥ scrollThreshold) :
    accumulate_scroll scrollThreshold cooldown dx dy now st =
      .deadlocked ⟨st.lastScreenshotTime, 0, 0⟩ := by
  simp [accumulate_scroll, capture_on_event, h]

/-- If either per-axis gap exceeds a nonnegative threshold, the squared
Euclidean distance exceeds the squared threshold. -/
theorem pyAbsInt_gt_sq {thr x y : ℤ} (hthr : 0 ≤ thr)
    (h : pyAbsInt x > thr ∨ pyAbsInt y > thr) : thr ^ 2 < x ^ 2 + y ^ 2 := by
  unfold pyAbsInt at h
  rcases h with h | h
  · by_cases hx : x < 0 <;> simp [hx] at h <;> nlinarith [sq_nonneg y]
  · by_cases hy : y < 0 <;> simp [hy] at h <;> nlinarith [sq_nonneg x]

/-- One delivery step of `runAppends`, with the drain decision exposed as
an `if` on the post-append length. -/
theorem runAppends_cons {α : Type} (n : ℕ) (buf : List α) (e : α) (es : List α) :
    runAppends n buf (e :: es) =
      if n ≤ (buf ++ [e]).length then
        ((runAppends n [] es).1, (buf ++ [e]) :: (runAppends n [] es).2)
      else runAppends n (buf ++ [e]) es := by
  by_cases h : n ≤ (buf ++ [e]).length
  · simp only [runAppends, bufferAppend, if_pos h]
  · simp only [runAppends, bufferAppend, if_neg h]

/-- While the running buffer stays strictly below the size threshold, no
batch is drained and the events pile up in order. -/
theorem runAppends_under {α : Type} (n : ℕ) (es : List α) :
    ∀ buf : List α, buf.length + es.length < n →
      runAppends n buf es = (buf ++ es, []) := by
  induction es with
  | nil =>
      intro buf h
      simp [runAppends]
  | cons e es ih =>
      intro buf h
      have hlt : ¬ (n ≤ (buf ++ [e]).length) := by
        simp only [List.length_append, List.length_cons] at h ⊢
        simp at h ⊢
        omega
      rw [runAppends_cons, if_neg hlt, ih (buf ++ [e]) (by simp at h ⊢; omega)]
      simp

/-- Feeding exactly enough events to reach the size threshold drains a
single batch holding everything, leaving the buffer empty. -/
theorem runAppends_fill {α : Type} (n : ℕ) (es : List α) :
    ∀ buf : List α, es ≠ [] → buf.length + es.length = n →
      runAppends n buf es = ([], [buf ++ es]) := by
  induction es with
  | nil =>
      intro buf hne hlen
      exact absurd rfl hne
  | cons e es ih =>
      intro buf hne hlen
      cases es with
      | nil =>
          have hge : n ≤ (buf ++ [e]).length := by
            simp at hlen ⊢
            omega
          rw [runAppends_cons, if_pos hge]
          simp [runAppends]
      | cons e' es' =>
          have hlt : ¬ (n ≤ (buf ++ [e]).length) := by
            simp at hlen ⊢
            omega
          rw [runAppends_cons, if_neg hlt,
            ih (buf ++ [e]) (by simp) (by simp at hlen ⊢; omega)]
          simp

/-! ## Claims -/

/-- C1: the claim says the accumulate→check→fire sequence of a
threshold-reaching scroll runs as one critical section and the handler
returns, never re-acquiring the lock it already holds.  The code violates
this: `_accumulate_scroll` invokes `_capture_on_event` inside its
`with self.lock` block, and `_capture_on_event` re-acquires the same
non-reentrant lock, so every threshold-reaching scroll self-deadlocks and
the handler never returns (the accumulators having been zeroed first). -/
theorem scroll_threshold_capture_deadlocks
    (scrollThreshold cooldown dx dy now : ℚ) (st : ScreenshotTracker)
    (h : pyAbs (st.accX + pyAbs dx) + pyAbs (st.accY + pyAbs dy) ≥ scrollThreshold) :
    accumulate_scroll scrollThreshold cooldown dx dy now st =
      .deadlocked ⟨st.lastScreenshotTime, 0, 0⟩ :=
  accumulate_scroll_deadlocks_of_threshold scrollThreshold cooldown dx dy now st h

/-- Witness for C1: a single scroll of magnitude 100 against threshold 100,
from the idle initial state, deadlocks. -/
theorem scroll_threshold_capture_deadlocks_witness :
    pyAbs ((0 : ℚ) + pyAbs 0) + pyAbs ((0 : ℚ) + pyAbs 100) ≥ 100 ∧
    accumulate_scroll 100 (1/2) 0 100 5 ⟨0, 0, 0⟩ = .deadlocked ⟨0, 0, 0⟩ :=
  ⟨by norm_num [pyAbs],
   scroll_threshold_capture_deadlocks 100 (1/2) 0 100 5 ⟨0, 0, 0⟩
     (by norm_num [pyAbs])⟩

/-- C2 counterexample: the forced flush path does call the store's batch
write while holding the buffer's lock — `_flush_buffer_safe` on a
one-event buffer with an active session writes at lock depth 1. -/
theorem flush_writes_while_holding_lock_cex :
    writesWhileLocked 0 (flush_trace [(0 : ℕ)] true) = true := by
  rfl

/-- C2 as amended: the size-triggered drain in `_on_mouse_event` always
performs the batch write after releasing the buffer lock, but
`_flush_buffer_safe` performs its batch write while holding the lock
whenever it writes at all (non-empty buffer, active session). -/
theorem buffer_lock_write_discipline {α : Type} (bufferSize : ℕ)
    (buf fbuf : List α) (e : α) (sessionActive : Bool) (hne : fbuf ≠ []) :
    writesWhileLocked 0 (on_mouse_event_trace bufferSize buf e sessionActive) = false ∧
    writesWhileLocked 0 (flush_trace fbuf true) = true := by
  constructor
  · unfold on_mouse_event_trace bufferAppend
    by_cases h : bufferSize ≤ buf.length + 1 <;>
      cases sessionActive <;> simp [h, writesWhileLocked]
  · have hemp : fbuf.isEmpty = false := by
      simp [List.isEmpty_iff, hne]
    simp [flush_trace, hemp, writesWhileLocked]

/-- Witness for C2-amended: buffer size 2, append onto a one-event buffer
with a session active, and flush a one-event buffer. -/
theorem buffer_lock_write_discipline_witness :
    ([(0 : ℕ)] ≠ []) ∧
    (writesWhileLocked 0 (on_mouse_event_trace 2 [(1 : ℕ)] 2 true) = false ∧
     writesWhileLocked 0 (flush_trace [(0 : ℕ)] true) = true) :=
  ⟨by simp, buffer_lock_write_discipline 2 [1] [0] 2 true (by simp)⟩

/-- C3 counterexample: two captures 0.6 s apart (more than the 0.5 s
cooldown, less than one second, distinct timestamps) receive the *same*
screenshot filename, because the derivation truncates the timestamp to
whole seconds. -/
theorem screenshot_filename_collision_cex :
    (1008/10 : ℚ) - 1002/10 > 1/2 ∧
    (1008/10 : ℚ) - 1002/10 < 1 ∧
    (1002/10 : ℚ) ≠ 1008/10 ∧
    screenshotFilename 7 (1002/10) "click" "png" =
      screenshotFilename 7 (1008/10) "click" "png" := by
  refine ⟨by norm_num, by norm_num, by norm_num, ?_⟩
  have h1 : pyInt (1002/10 : ℚ) = 100 := by norm_num [pyInt]
  have h2 : pyInt (1008/10 : ℚ) = 100 := by norm_num [pyInt]
  simp [screenshotFilename, h1, h2]

/-- C3 as amended: artifact filenames are derived from (session id,
timestamp truncated to the whole second, kind), so any two artifacts of
the same kind whose timestamps fall in the same integer second — even
when separated by more than the cooldown — collide: the later file
overwrites the earlier one. -/
theorem artifact_filename_truncated_second (sessionId : ℕ) (ts1 ts2 : ℚ)
    (kind fmt : String) (h : pyInt ts1 = pyInt ts2) :
    screenshotFilename sessionId ts1 kind fmt =
      screenshotFilename sessionId ts2 kind fmt ∧
    audioFilename sessionId ts1 = audioFilename sessionId ts2 := by
  simp [screenshotFilename, audioFilename, h]

/-- Witness for C3-amended: timestamps 100.2 and 100.8 truncate to the
same second, so both artifact kinds collide. -/
theorem artifact_filename_truncated_second_witness :
    pyInt (1002/10 : ℚ) = pyInt (1008/10 : ℚ) ∧
    (screenshotFilename 7 (1002/10) "scroll" "png" =
       screenshotFilename 7 (1008/10) "scroll" "png" ∧
     audioFilename 7 (1002/10) = audioFilename 7 (1008/10)) :=
  ⟨by norm_num [pyInt],
   artifact_filename_truncated_second 7 (1002/10) (1008/10) "scroll" "png"
     (by norm_num [pyInt])⟩

/-- C4: the claim (and the repository's own normalization test, which
clamps to [0,1] citing the database CHECK constraint) says stored emotion
probabilities and face confidence lie in [0,1] for every classifier
output.  The production path `_analyze_frame` → `_on_emotion` →
`insert_emotion_event` only divides class scores by 100 and forwards
`face_confidence` untouched: a class score of 150 is stored as 1.5 and a
face confidence of 1.5 is stored as 1.5, while the test's
`normalize_emotion` would clamp 150 to 1. -/
theorem emotion_values_stored_unclamped_eval :
    insert_emotion_value (analyze_frame_emotion_value 150) = 3/2 ∧
    ¬(insert_emotion_value (analyze_frame_emotion_value 150) ≤ 1) ∧
    insert_emotion_value (analyze_frame_face_confidence (3/2)) = 3/2 ∧
    normalize_emotion 150 = 1 := by
  refine ⟨by norm_num [insert_emotion_value, analyze_frame_emotion_value], ?_, ?_, ?_⟩
  · norm_num [insert_emotion_value, analyze_frame_emotion_value]
  · norm_num [insert_emotion_value, analyze_frame_face_confidence]
  · norm_num [normalize_emotion, min_def, max_def]

/-- C5: the claim says scroll deltas summing to exactly the threshold fire
exactly one trigger and reset the accumulator, and deltas summing to
threshold − 1 fire none.  On the code, the threshold − 1 half holds, but
the threshold half fails: the run deadlocks on the threshold-reaching
event with *zero* fired triggers (accumulator reset to 0, listener thread
hung). -/
theorem scroll_sum_threshold_eval :
    runEvents 100 (1/2) ⟨0, 0, 0⟩ [(.scroll 0 60, 1), (.scroll 0 40, 2)] =
      (⟨0, 0, 0⟩, 0, true) ∧
    (runEvents 100 (1/2) ⟨0, 0, 0⟩ [(.scroll 0 60, 1), (.scroll 0 39, 2)]).2 =
      (0, false) := by
  constructor <;>
    norm_num [runEvents, on_mouse_event, accumulate_scroll, capture_on_event, pyAbs]

/-- C6: two pressed clicks, the first arriving with no cooldown in effect:
separated by strictly less than the cooldown, exactly one trigger fires
(the second is dropped); separated by more than the cooldown, exactly two
fire.  Neither run deadlocks. -/
theorem two_clicks_cooldown_counts
    (scrollThreshold cooldown last0 ax ay t1 t2 t2' : ℚ)
    (h1 : t1 - last0 ≥ cooldown) :
    (t2 - t1 < cooldown →
      (runEvents scrollThreshold cooldown ⟨last0, ax, ay⟩
        [(.click true, t1), (.click true, t2)]).2 = (1, false)) ∧
    (t2' - t1 > cooldown →
      (runEvents scrollThreshold cooldown ⟨last0, ax, ay⟩
        [(.click true, t1), (.click true, t2')]).2 = (2, false)) := by
  constructor
  · intro h2
    simp [runEvents, on_mouse_event, capture_on_event, not_lt.mpr h1, h2]
  · intro h2
    simp [runEvents, on_mouse_event, capture_on_event, not_lt.mpr h1,
      not_lt.mpr (le_of_lt h2)]

/-- Witness for C6: cooldown 0.5 s, clicks at t = 1 and t = 1.25 give one
trigger; clicks at t = 1 and t = 2 give two. -/
theorem two_clicks_cooldown_counts_witness :
    (1 : ℚ) - 0 ≥ 1/2 ∧
    (((5/4 : ℚ) - 1 < 1/2 →
      (runEvents 100 (1/2) ⟨0, 0, 0⟩
        [(.click true, 1), (.click true, 5/4)]).2 = (1, false)) ∧
     ((2 : ℚ) - 1 > 1/2 →
      (runEvents 100 (1/2) ⟨0, 0, 0⟩
        [(.click true, 1), (.click true, 2)]).2 = (2, false))) :=
  ⟨by norm_num, two_clicks_cooldown_counts 100 (1/2) 0 0 0 1 (5/4) 2 (by norm_num)⟩

/-- C7: from an empty buffer, appending exactly `threshold` events drains
exactly one batch holding all of them and empties the buffer; appending
`threshold − 1` drains nothing, and the forced flush then emits exactly
one batch of size `threshold − 1`. -/
theorem buffer_threshold_and_flush_drains {α : Type} (n : ℕ) (es fs : List α)
    (hn : 0 < n) (hlen : es.length = n) (hf : fs.length = n - 1)
    (hfne : fs ≠ []) :
    runAppends n [] es = ([], [es]) ∧
    runAppends n [] fs = (fs, []) ∧
    flush_buffer_safe fs true = ([], some fs) := by
  refine ⟨?_, ?_, ?_⟩
  · have hne : es ≠ [] := by
      rintro rfl
      simp at hlen
      omega
    simpa using runAppends_fill n es [] hne (by simpa using hlen)
  · simpa using runAppends_under n fs [] (by simp [hf]; omega)
  · have hemp : fs.isEmpty = false := by
      simp [List.isEmpty_iff, hfne]
    simp [flush_buffer_safe, hemp]

/-- Witness for C7: the default threshold 50, with 50 and 49 unit events. -/
theorem buffer_threshold_and_flush_drains_witness :
    0 < 50 ∧ (List.replicate 50 (0 : ℕ)).length = 50 ∧
    (List.replicate 49 (0 : ℕ)).length = 50 - 1 ∧
    List.replicate 49 (0 : ℕ) ≠ [] ∧
    (runAppends 50 [] (List.replicate 50 (0 : ℕ)) = ([], [List.replicate 50 0]) ∧
     runAppends 50 [] (List.replicate 49 (0 : ℕ)) = (List.replicate 49 0, []) ∧
     flush_buffer_safe (List.replicate 49 (0 : ℕ)) true =
       ([], some (List.replicate 49 0))) :=
  ⟨by norm_num, by simp, by simp, by simp,
   buffer_threshold_and_flush_drains 50 (List.replicate 50 0)
     (List.replicate 49 0) (by norm_num) (by simp) (by simp) (by simp)⟩

/-- C8: every emitted move is farther than the (nonnegative) movement
threshold from the previously emitted position — in the code's per-axis
sense and hence in squared Euclidean distance — so consecutive emitted
moves, starting from the initial last position, never lie within the
throttle distance of each other. -/
theorem moves_emitted_beyond_threshold (movementThreshold : ℤ)
    (hthr : 0 ≤ movementThreshold) (last0 : ℤ × ℤ) (ps : List (ℤ × ℤ)) :
    List.Chain (fun a b =>
      (pyAbsInt (b.1 - a.1) > movementThreshold ∨
       pyAbsInt (b.2 - a.2) > movementThreshold) ∧
      movementThreshold ^ 2 < (b.1 - a.1) ^ 2 + (b.2 - a.2) ^ 2)
      last0 (runMoves movementThreshold last0 ps).2 := by
  induction ps generalizing last0 with
  | nil => exact List.Chain.nil
  | cons p ps ih =>
      by_cases hcond : pyAbsInt (p.1 - last0.1) > movementThreshold ∨
          pyAbsInt (p.2 - last0.2) > movementThreshold
      · simp only [runMoves, on_move, if_pos hcond]
        exact List.Chain.cons ⟨hcond, pyAbsInt_gt_sq hthr hcond⟩ (ih p)
      · simp only [runMoves, on_move, if_neg hcond]
        exact ih last0

/-- Witness for C8: threshold 5 from (0,0); the position (4,4) is
swallowed, (10,0) is emitted. -/
theorem moves_emitted_beyond_threshold_witness :
    (0 : ℤ) ≤ 5 ∧
    List.Chain (fun a b =>
      (pyAbsInt (b.1 - a.1) > 5 ∨ pyAbsInt (b.2 - a.2) > 5) ∧
      (5 : ℤ) ^ 2 < (b.1 - a.1) ^ 2 + (b.2 - a.2) ^ 2)
      ((0 : ℤ), (0 : ℤ)) (runMoves 5 (0, 0) [(4, 4), (10, 0)]).2 :=
  ⟨by norm_num, moves_emitted_beyond_threshold 5 (by norm_num) (0, 0) [(4, 4), (10, 0)]⟩

/-- C9: the pre-blur accumulated grid's total mass equals the event count;
whenever the (smoothed) grid's maximum is 0 the normalization step leaves
the grid untouched and every entry is 0; the empty event list produces the
all-zero grid; and on identical-point non-empty input the post-normalize
maximum is exactly 1. -/
theorem activity_map_properties (W H : ℕ) [NeZero W] [NeZero H] (r : ℕ)
    (events : List (ℤ × ℤ)) (n : ℕ) (hn : 0 < n) (e : ℤ × ℤ) :
    totalMass W H (accumulateEvents W H events) = events.length ∧
    (gridMax W H (gaussian_filter W H r (accumulateEvents W H events)) = 0 →
      normalizeGrid W H (gaussian_filter W H r (accumulateEvents W H events)) =
        gaussian_filter W H r (accumulateEvents W H events) ∧
      ∀ p, gaussian_filter W H r (accumulateEvents W H events) p = 0) ∧
    create_heatmap_array W H r [] = zeroGrid W H ∧
    gridMax W H (create_heatmap_array W H r (List.replicate n e)) = 1 := by
  refine ⟨totalMass_accumulate W H events, ?_, ?_, ?_⟩
  · intro h
    refine ⟨normalizeGrid_of_max_zero W H _ h, ?_⟩
    exact gridMax_zero_grid_zero W H _
      (gaussian_filter_nonneg W H r _ (accumulate_nonneg W H events)) h
  · unfold create_heatmap_array
    rw [show accumulateEvents W H ([] : List (ℤ × ℤ)) = zeroGrid W H from rfl,
      gaussian_filter_zero, normalizeGrid_of_max_zero W H _ (gridMax_zeroGrid W H)]
  · unfold create_heatmap_array
    apply gridMax_normalize_eq_one
    have hnn := accumulate_nonneg W H (List.replicate n e)
    have hcell := accumulate_replicate_pos W H n hn e
    have hpos := gaussian_filter_pos_at W H r _ hnn _ hcell
    exact lt_of_lt_of_le hpos (le_gridMax W H _ _)

/-- Witness for C9: a 2×2 canvas, radius 1, a two-event list, and a
single-event identical-point input. -/
theorem activity_map_properties_witness :
    0 < 1 ∧
    (totalMass 2 2 (accumulateEvents 2 2 [((0 : ℤ), (0 : ℤ)), (3, 5)]) =
       ([((0 : ℤ), (0 : ℤ)), (3, 5)] : List (ℤ × ℤ)).length ∧
     (gridMax 2 2 (gaussian_filter 2 2 1 (accumulateEvents 2 2 [((0 : ℤ), (0 : ℤ)), (3, 5)])) = 0 →
       normalizeGrid 2 2 (gaussian_filter 2 2 1 (accumulateEvents 2 2 [((0 : ℤ), (0 : ℤ)), (3, 5)])) =
         gaussian_filter 2 2 1 (accumulateEvents 2 2 [((0 : ℤ), (0 : ℤ)), (3, 5)]) ∧
       ∀ p, gaussian_filter 2 2 1 (accumulateEvents 2 2 [((0 : ℤ), (0 : ℤ)), (3, 5)]) p = 0) ∧
     create_heatmap_array 2 2 1 [] = zeroGrid 2 2 ∧
     gridMax 2 2 (create_heatmap_array 2 2 1 (List.replicate 1 ((1 : ℤ), (1 : ℤ)))) = 1) :=
  ⟨by norm_num,
   activity_map_properties 2 2 1 [((0 : ℤ), (0 : ℤ)), (3, 5)] 1 (by norm_num) (1, 1)⟩

/-- C10: a scroll event that lifts the accumulated magnitude to the
threshold while the cooldown is in effect leaves the accumulator at 0 and
fires no capture: the accumulated magnitude is discarded, not carried
over.  (On the code this holds because the accumulators are zeroed just
before the nested `_capture_on_event` call blocks on the lock; the
cooldown comparison itself is never reached.) -/
theorem scroll_during_cooldown_discards
    (scrollThreshold cooldown dx dy now : ℚ) (st : ScreenshotTracker)
    (hcool : now - st.lastScreenshotTime < cooldown)
    (h : pyAbs (st.accX + pyAbs dx) + pyAbs (st.accY + pyAbs dy) ≥ scrollThreshold) :
    accOf (accumulate_scroll scrollThreshold cooldown dx dy now st) = 0 ∧
    firedOf (accumulate_scroll scrollThreshold cooldown dx dy now st) = false := by
  rw [accumulate_scroll_deadlocks_of_threshold scrollThreshold cooldown dx dy now st h]
  norm_num [accOf, firedOf, pyAbs]

/-- Witness for C10: 0.25 s after a capture with cooldown 0.5 s, a scroll
of magnitude 100 against threshold 100 leaves the accumulator at 0 and
fires nothing. -/
theorem scroll_during_cooldown_discards_witness :
    ((1/4 : ℚ) - 0 < 1/2) ∧
    (pyAbs ((0 : ℚ) + pyAbs 0) + pyAbs ((0 : ℚ) + pyAbs 100) ≥ 100) ∧
    (accOf (accumulate_scroll 100 (1/2) 0 100 (1/4) ⟨0, 0, 0⟩) = 0 ∧
     firedOf (accumulate_scroll 100 (1/2) 0 100 (1/4) ⟨0, 0, 0⟩) = false) :=
  ⟨by norm_num, by norm_num [pyAbs],
   scroll_during_cooldown_discards 100 (1/2) 0 100 (1/4) ⟨0, 0, 0⟩
     (by norm_num) (by norm_num [pyAbs])⟩

end HciLogger


